import Mathlib

/-!
Verification of the `suseapi.bugzilla` module (python-suseapi).

This file gives a shallow embedding of the parts of `src/suseapi/bugzilla.py`
needed to settle the frozen claims: the XML sanitizer `escape_xml_text`, the
`Bug` record construction (`Bug.__init__`, `process_element`, `process_flag`,
`process_comment`, `process_attachment`), the `get_bugs` batch loop and its
retry wrapper, `do_search`, `_handle_parse_error`, `possible_relogin` with the
`request`/`submit` wrappers, and `_update_bug_whiteboard`.

Python strings are Lean `String`s (manipulated through their `List Char`
representation where exact scan semantics matter), Python `None`-able values
are `Option`s, and raised exceptions are `Except` errors.  External
collaborators (the HTTP transport, lxml parsing, `dateutil`) are modelled as
oracle parameters, never as fixed stubs.
-/

/-! ## Python string primitives

Models of the Python `str` operations used by the source: substring
containment (`pat in s`), `str.find` (first occurrence index, `-1` when
absent), `str.replace(pat, '')` (removes every non-overlapping occurrence in
one left-to-right scan), slicing `s[k:]`, and `int(s)`.
-/

/-- Model of Python `pat in s` substring containment (`'' in s` is `True`). -/
def pyContains (pat : List Char) : List Char → Bool
  | [] => pat.isEmpty
  | c :: rest => pat.isPrefixOf (c :: rest) || pyContains pat rest

/-- Index of the first occurrence of `pat` in the scanned list, offset by `i`. -/
def strFindAux (pat : List Char) : List Char → Nat → Option Nat
  | [], i => if pat.isEmpty then some i else none
  | c :: rest, i =>
    if pat.isPrefixOf (c :: rest) then some i else strFindAux pat rest (i + 1)

/-- Model of Python `s.find(pat)`: first occurrence index, or `-1`. -/
def pyFind (s pat : String) : Int :=
  match strFindAux pat.data s.data 0 with
  | some i => Int.ofNat i
  | none => -1

/-- Worker for `pyRemoveAll`: a left-to-right scan; `skip > 0` means we are
inside a matched occurrence and the current characters are dropped. -/
def removeAllGo (pat : List Char) : List Char → Nat → List Char
  | [], _ => []
  | _ :: rest, skip + 1 => removeAllGo pat rest skip
  | c :: rest, 0 =>
    if pat.isPrefixOf (c :: rest) then removeAllGo pat rest (pat.length - 1)
    else c :: removeAllGo pat rest 0

/-- Model of Python `s.replace(pat, '')`: every non-overlapping occurrence of
`pat` is deleted in a single left-to-right scan (`s.replace('', '')` is `s`). -/
def pyRemoveAll (s pat : List Char) : List Char :=
  if pat.isEmpty then s else removeAllGo pat s 0

/-- Model of Python `s[k:]` (negative `k` counts from the end, clamped). -/
def pySliceFrom (s : String) (k : Int) : String :=
  if 0 ≤ k then String.mk (s.data.drop k.toNat)
  else String.mk (s.data.drop (s.data.length - (-k).toNat))

/-- Decimal value of a digit list, most significant first. -/
def natOfDigits (ds : List Char) : Nat :=
  ds.foldl (fun a c => 10 * a + (c.toNat - 48)) 0

/-! ## Error taxonomy

The source defines a hierarchy rooted at `BugzillaError(error, bug_id=None)`
with subclasses `BugzillaNotPermitted`, `BugzillaNotFound`,
`BugzillaInvalidBugId`, `BugzillaConnectionError` (itself specialised into
`BugzillaLoginFailed` and `BugzillaUpdateError`) and `BuglistTooLarge`.  We
model the class of a raised error as a `BzKind` tag; non-Bugzilla Python
exceptions (e.g. `AttributeError`, `TypeError`, `ValueError`) that the source
never catches are a separate `PyErr.py` constructor.
-/

/-- Which concrete `BugzillaError` subclass an error instance belongs to. -/
inductive BzKind where
  | generic
  | notPermitted
  | notFound
  | invalidBugId
  | connection
  | loginFailed
  | buglistTooLarge
  | updateError
deriving DecidableEq, Repr

/-- An instance of the `BugzillaError` family: subclass tag, message (`error`)
and the optional `bug_id` passed to the constructor. -/
structure BzError where
  kind : BzKind
  error : String
  bug_id : Option String
deriving DecidableEq, Repr

/-- A raised Python exception: either a member of the `BugzillaError` family
(caught by `except BugzillaError`) or any other Python exception. -/
inductive PyErr where
  | bz (e : BzError)
  | py (msg : String)
deriving DecidableEq, Repr

/-- Decidable equality of raised-or-returned results, used only to let
concrete witnesses evaluate by `decide`. -/
instance {ε α : Type} [DecidableEq ε] [DecidableEq α] : DecidableEq (Except ε α) := by
  intro x y
  cases x <;> cases y
  case error.error a b =>
    exact decidable_of_iff (a = b) (by constructor <;> (intro h; first | injection h | rw [h]))
  case ok.ok a b =>
    exact decidable_of_iff (a = b) (by constructor <;> (intro h; first | injection h | rw [h]))
  all_goals exact isFalse (by intro h; injection h)

/-! ## XML elements

An lxml element as consumed by the source: tag, attributes, text content and
direct children.  `get` reads an attribute (`None` when absent), `find`
returns the first direct child with the given tag, `findall` all of them. -/

/-- Parsed XML element (lxml `_Element`). -/
inductive XElem where
  | mk (tag : String) (attrs : List (String × String)) (text : Option String)
      (children : List XElem)

/-- Tag name of an element. -/
def XElem.tag : XElem → String
  | .mk t _ _ _ => t

/-- Attribute list of an element. -/
def XElem.attrs : XElem → List (String × String)
  | .mk _ a _ _ => a

/-- Text content of an element (`None` when the element has no text). -/
def XElem.text : XElem → Option String
  | .mk _ _ t _ => t

/-- Direct children of an element (lxml `getchildren()`). -/
def XElem.children : XElem → List XElem
  | .mk _ _ _ c => c

/-- Model of lxml `element.get(name)`: attribute value or `None`. -/
def XElem.get (e : XElem) (name : String) : Option String :=
  (e.attrs.find? (fun p => p.1 == name)).map (fun p => p.2)

/-- Model of lxml `element.find(tag)`: first direct child with that tag. -/
def XElem.find (e : XElem) (t : String) : Option XElem :=
  e.children.find? (fun c => c.tag == t)

/-- Model of lxml `element.findall(tag)`: all direct children with that tag,
in document order. -/
def XElem.findall (e : XElem) (t : String) : List XElem :=
  e.children.filter (fun c => c.tag == t)

/-! ## XML sanitizer (`escape_xml_text`)

Source (`bugzilla.py:101-113`): builds
`replacement_map = {chr(o): '\x%02d' % o for o in range(32) if o not in (9, 10, 13)}`,
then substitutes every occurrence of a key via a compiled regular expression
(the longest-match-first sort is vacuous: every key is a single character, so
the regex substitution is exactly a per-character replacement).  The Python
dict is keyed by the one-character string `chr(o)`; since `chr` is injective
we key the association list by the code point `o` itself and look up the code
point of each scanned character. -/

/-- The `'\x%02d' % o` escape string: a backslash, `x`, and the two-digit
zero-padded decimal code point (for `o < 32` `%02d` yields exactly two
digits). -/
def escSeq (o : Nat) : String :=
  String.mk ['\\', 'x', Char.ofNat (48 + o / 10), Char.ofNat (48 + o % 10)]

/-- The `replacement_map` of `escape_xml_text`, keyed by code point: control
characters `0-31` except tab (9), line feed (10) and carriage return (13). -/
def replacement_map : List (Nat × String) :=
  (((List.range 32).filter (fun o => o != 9 && o != 10 && o != 13)).map
    (fun o => (o, escSeq o)))

/-- Model of `escape_xml_text`: replace each occurrence of a mapped control
character by its escape sequence, leaving every other character unchanged. -/
def escape_xml_text (data : String) : String :=
  String.mk (data.data.flatMap (fun c =>
    match replacement_map.lookup c.toNat with
    | some repl => repl.data
    | none => [c]))

/-! ## Bug records (`class Bug`)

`Bug.__init__(bug_et, anonymous)` first checks the `error` attribute and
raises a typed error when it is present; otherwise it initialises the list
fields and dispatches every direct child through `process_element`.
`dateutil.parser.parse` is an external collaborator; it is modelled by the
oracle `PyEnv.parseDate` (failing parses raise a non-Bugzilla exception, and
calling it on `None` raises `TypeError`). -/

/-- Oracle for the external `dateutil.parser.parse`: either a parsed
timestamp (abstracted to a `Nat`) or the message of the raised exception. -/
structure PyEnv where
  parseDate : String → Except String Nat

/-- One entry of `Bug.comments` (`process_comment`). -/
structure BzComment where
  who : Option String
  bug_when : Option Nat
  isprivate : Bool
  thetext : Option String
deriving DecidableEq, Repr

/-- One entry of `Bug.attachments` (`process_attachment`). -/
structure BzAttachment where
  attachid : Option String
  desc : Option String
  date : Nat
  filename : Option String
  type : Option String
  size : Option String
  attacher : Option String
  ispatch : Bool
  isobsolete : Bool
deriving DecidableEq, Repr

/-- One entry of `Bug.flags` (`process_flag`): a sparse record of the stored
attributes, in the order they were inserted. -/
abbrev BzFlag := List (String × String)

/-- The `Bug` value object.  The fields are those assigned in `__init__`;
`extra` holds the scalar attributes installed dynamically by
`setattr(self, element.tag, element.text)` for leaf children (in CPython such
a leaf whose tag collides with one of the named fields would shadow it in the
instance dict; `bug_id`, the only such tag the server produces and the only
one any claim touches, is modelled precisely, the rest land in `extra`). -/
structure Bug where
  bug_id : Option String
  cc_list : List (Option String)
  groups : List (Option String)
  comments : List BzComment
  attachments : List BzAttachment
  aliases : List (Option String)
  delta_ts : Option Nat
  creation_ts : Option Nat
  anonymous : Bool
  flags : List BzFlag
  extra : List (String × Option String)
deriving DecidableEq, Repr

/-- Call of `dateutil.parser.parse(text)` where `text` came from
`element.text` (`None` raises `TypeError`, a failed parse raises). -/
def parseDateText (env : PyEnv) : Option String → Except PyErr Nat
  | none => .error (.py "TypeError: Parser must be a string or character stream, not NoneType")
  | some s =>
    match env.parseDate s with
    | .ok n => .ok n
    | .error m => .error (.py m)

/-- The attribute names `process_flag` looks for. -/
def flag_attributes : List String :=
  ["name", "id", "type_id", "status", "setter", "requestee"]

/-- Model of `Bug.process_flag`: collect, in order, the attributes of
`flag_attributes` whose value is present and truthy (non-empty). -/
def process_flag (element : XElem) : BzFlag :=
  flag_attributes.foldl (fun flag attrName =>
    match element.get attrName with
    | some value => if value ≠ "" then flag ++ [(attrName, value)] else flag
    | none => flag) []

/-- Model of `Bug.process_comment`: `who`/`bug_when` are required unless
`anonymous` (else `BugzillaNotPermitted` carrying the current `bug_id`);
`isprivate == "1"` sets the private flag; `element.find('thetext').text`
raises `AttributeError` when the child is missing. -/
def process_comment (env : PyEnv) (b : Bug) (element : XElem) : Except PyErr Bug := do
  let who ← match element.find "who" with
    | none =>
      if !b.anonymous then
        .error (.bz ⟨.notPermitted, "Could not load author from bugzilla", b.bug_id⟩)
      else
        .ok (some "")
    | some who_elm => .ok who_elm.text
  let when ← match element.find "bug_when" with
    | none =>
      if !b.anonymous then
        .error (.bz ⟨.notPermitted, "Could not load time of change from bugzilla", b.bug_id⟩)
      else
        .ok none
    | some when_elm => do
      let n ← parseDateText env when_elm.text
      .ok (some n)
  let thetext ← match element.find "thetext" with
    | none => .error (.py "AttributeError: NoneType object has no attribute text")
    | some t => .ok t.text
  .ok { b with comments := b.comments ++
    [{ who := who, bug_when := when,
       isprivate := element.get "isprivate" == some "1", thetext := thetext }] }

/-- Lookup of a required attachment child: `element.find(tag).text` raises
`AttributeError` when the child is absent. -/
def requiredChildText (element : XElem) (t : String) : Except PyErr (Option String) :=
  match element.find t with
  | none => .error (.py "AttributeError: NoneType object has no attribute text")
  | some el => .ok el.text

/-- Model of `Bug.process_attachment`: all seven children are required, the
date is parsed, and `ispatch`/`isobsolete` default to false. -/
def process_attachment (env : PyEnv) (b : Bug) (element : XElem) : Except PyErr Bug := do
  let attachid ← requiredChildText element "attachid"
  let desc ← requiredChildText element "desc"
  let dateText ← requiredChildText element "date"
  let date ← parseDateText env dateText
  let filename ← requiredChildText element "filename"
  let typ ← requiredChildText element "type"
  let size ← requiredChildText element "size"
  let attacher ← requiredChildText element "attacher"
  .ok { b with attachments := b.attachments ++
    [{ attachid := attachid, desc := desc, date := date, filename := filename,
       type := typ, size := size, attacher := attacher,
       ispatch := (element.get "ispatch").getD "0" == "1",
       isobsolete := (element.get "isobsolete").getD "0" == "1" }] }

/-- Model of `Bug.process_element`: dispatch on the tag, in source order. -/
def process_element (env : PyEnv) (b : Bug) (element : XElem) : Except PyErr Bug :=
  if element.tag == "cc" then
    .ok { b with cc_list := b.cc_list ++ [element.text] }
  else if element.tag == "alias" then
    .ok { b with aliases := b.aliases ++ [element.text] }
  else if element.tag == "group" then
    .ok { b with groups := b.groups ++ [element.text] }
  else if element.tag == "creation_ts" then do
    let n ← parseDateText env element.text
    .ok { b with creation_ts := some n }
  else if element.tag == "delta_ts" then do
    let n ← parseDateText env element.text
    .ok { b with delta_ts := some n }
  else if element.tag == "flag" then
    .ok { b with flags := b.flags ++ [process_flag element] }
  else if element.children.isEmpty then
    -- setattr(self, element.tag, element.text)
    if element.tag == "bug_id" then .ok { b with bug_id := element.text }
    else .ok { b with extra := b.extra ++ [(element.tag, element.text)] }
  else if element.tag == "long_desc" then
    process_comment env b element
  else if element.tag == "attachment" then
    process_attachment env b element
  else
    .ok b

/-- The `bug_id` read for diagnostics in the error branch of `__init__`:
text of the nested `bug_id` child, or `None`. -/
def errorBugId (bug_et : XElem) : Option String :=
  match bug_et.find "bug_id" with
  | some el => el.text
  | none => none

/-- Model of `Bug.__init__(bug_et, anonymous)`. -/
def Bug.init (env : PyEnv) (bug_et : XElem) (anonymous : Bool) : Except PyErr Bug :=
  match bug_et.get "error" with
  | some error =>
    let bug_id := errorBugId bug_et
    if error == "NotPermitted" then .error (.bz ⟨.notPermitted, error, bug_id⟩)
    else if error == "NotFound" then .error (.bz ⟨.notFound, error, bug_id⟩)
    else if error == "InvalidBugId" then .error (.bz ⟨.invalidBugId, error, bug_id⟩)
    else .error (.bz ⟨.generic, error, none⟩)
  | none =>
    let b0 : Bug :=
      { bug_id := none, cc_list := [], groups := [], comments := [],
        attachments := [], aliases := [], delta_ts := none,
        creation_ts := none, anonymous := anonymous, flags := [], extra := [] }
    bug_et.children.foldlM (process_element env) b0

/-! ## `_handle_parse_error`

Source (`bugzilla.py:389-403`).  Note that the second check is
`if data.find('Bugzilla has suffered an internal error.'):`  — the *truthiness*
of the index, not a comparison with `-1` as in the first check.  `str.find`
returns `-1` (truthy) when the marker is absent and `0` (falsy) when the
marker sits at the very start of the body.  The model reproduces this
literally. -/

/-- Outcome of `_handle_parse_error`: a raised exception, or only a call to
`log_parse_error` (after which `get_bugs`/`do_search` return `[]`). -/
inductive ParseErrorOutcome where
  | raised (e : BzError)
  | logged
deriving DecidableEq, Repr

/-- Model of `Bugzilla._handle_parse_error(bugid, data)` (the `bugid` is only
used for logging). -/
def handle_parse_error (data : String) : ParseErrorOutcome :=
  if pyFind data "Buglist Too Large" ≠ -1 then
    .raised ⟨.buglistTooLarge, "Buglist too large", none⟩
  else if pyFind data "Bugzilla has suffered an internal error." ≠ 0 then
    -- Python: `if data.find(marker):` — any non-zero index, including -1
    .raised ⟨.generic, "Bugzilla has suffered an internal error.", none⟩
  else if data = "" then
    .raised ⟨.generic, "Received empty response from Bugzilla.", none⟩
  else
    .logged

/-! ## `get_bugs` (batch loop and `BugzillaNotPermitted` retry)

Source (`bugzilla.py:431-478`).  The network request, sanitizing and lxml
parsing yield the response element tree; the claims concern the loop over its
`<bug>` children.  `elems` below stands for `response_et.findall('bug')`.
`self.login()` inside the retry branch is an external effect modelled by the
`login` oracle (its result, when it raises). -/

/-- A member of the `bugs` list built by `get_bugs`: a `Bug`, or (with
`store_errors`) the caught `BugzillaError` object itself. -/
abbrev BugOrErr := Except BzError Bug

/-- The `for bug in response_et.findall('bug')` loop of `get_bugs`: build the
`bugs` list, dispatching per-bug `BugzillaError`s on the
`store_errors`/`permissive` flags.  A raised error discards the local list. -/
def get_bugs_loop (env : PyEnv) (anonymous permissive store_errors : Bool) :
    List XElem → List BugOrErr → Except PyErr (List BugOrErr)
  | [], bugs => .ok bugs
  | bug :: rest, bugs =>
    match Bug.init env bug anonymous with
    | .ok b => get_bugs_loop env anonymous permissive store_errors rest (bugs ++ [.ok b])
    | .error (.bz exc) =>
      let bugs1 := if store_errors then bugs ++ [.error exc] else bugs
      if permissive then
        -- self.logger.error(exc); continue with the next bug
        get_bugs_loop env anonymous permissive store_errors rest bugs1
      else .error (.bz exc)
    | .error (.py m) => .error (.py m)

/-- The `self.login(); return self.get_bugs(ids, False, permissive)` tail of
the `except BugzillaNotPermitted` handler: if `login` raises, its exception
propagates instead of rerunning the batch; otherwise the rerun's result is
returned, counting one more login. -/
def login_and_rerun (login : Except PyErr Unit)
    (rerun : Nat × Except PyErr (List BugOrErr)) :
    Nat × Except PyErr (List BugOrErr) :=
  match login with
  | .ok _ => (rerun.1 + 1, rerun.2)
  | .error le => (1, .error le)

/-- Model of `Bugzilla.get_bugs(ids, retry, permissive, store_errors)` from
the parsed `<bug>` elements on: the loop, wrapped in
`except BugzillaNotPermitted` which (with `retry` set and real credentials)
logs in and re-runs `self.get_bugs(ids, False, permissive)` — note that the
recursive call passes `retry=False` and lets `store_errors` revert to its
default `False`.  The returned `Nat` counts the `self.login()` calls made. -/
def get_bugs (env : PyEnv) (login : Except PyErr Unit) (anonymous : Bool)
    (elems : List XElem) (retry permissive store_errors : Bool) :
    Nat × Except PyErr (List BugOrErr) :=
  match get_bugs_loop env anonymous permissive store_errors elems [] with
  | .error (.bz e) =>
    if e.kind = .notPermitted then
      if h : retry && !anonymous then
        login_and_rerun login (get_bugs env login anonymous elems false permissive false)
      else (0, .error (.bz e))
    else (0, .error (.bz e))
  | r => (0, r)
termination_by retry.toNat
decreasing_by
  simp only [Bool.and_eq_true] at h
  simp [h.1]

/-! ## `do_search`

Source (`bugzilla.py:480-505`): after the request/sanitize/parse stage, read
the text of the Atom `id` child of every Atom `entry` child, then for each
such text strip everything up to and including the first `?id=` and convert
the remainder with `int`. -/

/-- Model of Python `int(s)`: an optional sign followed by decimal digits
(the surrounding-whitespace and underscore forms Python also accepts do not
arise in this code path). -/
def pyInt (s : String) : Except PyErr Int :=
  let core := fun (ds : List Char) (sign : Int) =>
    if ds ≠ [] ∧ ds.all Char.isDigit then .ok (sign * Int.ofNat (natOfDigits ds))
    else .error (.py "ValueError: invalid literal for int")
  match s.data with
  | [] => .error (.py "ValueError: invalid literal for int")
  | c :: rest =>
    if c = '-' then core rest (-1)
    else if c = '+' then core rest 1
    else core (c :: rest) 1

/-- The Atom-namespaced `id` tag queried by `do_search`. -/
def id_query : String := "\x7bhttp://www.w3.org/2005/Atom\x7did"

/-- The Atom-namespaced `entry` tag queried by `do_search`. -/
def entry_query : String := "\x7bhttp://www.w3.org/2005/Atom\x7dentry"

/-- Model of the extraction stage of `Bugzilla.do_search`: given the parsed
feed element, return the bug ids
`[int(bugid[bugid.find("?id=") + 4:]) for bugid in bugs]` where `bugs` are
the texts of the entries' `id` children (a missing `id` child or a `None`
text raises `AttributeError`/`TypeError`). -/
def do_search_ids (response_et : XElem) : Except PyErr (List Int) := do
  let bugs ← (response_et.findall entry_query).mapM (fun bug =>
    match bug.find id_query with
    | some el => Except.ok el.text
    | none => Except.error (PyErr.py "AttributeError: NoneType object has no attribute text"))
  bugs.mapM (fun bugid =>
    match bugid with
    | some s => pyInt (pySliceFrom s (pyFind s "?id=" + 4))
    | none => Except.error (PyErr.py "TypeError: NoneType object is not subscriptable"))

/-! ## `possible_relogin` and the `request`/`submit` wrappers

Source (`bugzilla.py:254-295`).  The transport (`WebScraper`) is an external
collaborator: one call of the wrapped operation is an oracle outcome
`Except WSError α`.  `possible_relogin(error)` retries when the transport
error carries an underlying error object (`error.original`, truthy) that has
a `code` attribute equal to `502` and the session cookie set was established
(`self.cookie_set`); it then clears `cookie_set` and the cookie jar and runs
`self.login(force=True)` — also external, given as the `login` oracle, which
receives the cleared session.  The wrappers retry the bare
`super().request`/`super().submit` exactly once (the second outcome is the
`attempt2` oracle, returned as-is). -/

/-- The underlying error attached to a `WebScraperError`
(`error.original`), when present: its `code` attribute, when it has one. -/
structure OrigErr where
  code : Option Int
deriving DecidableEq, Repr

/-- A raised `WebScraperError` as inspected by `possible_relogin`. -/
structure WSError where
  original : Option OrigErr
deriving DecidableEq, Repr

/-- Session state the relogin path touches: the `cookie_set` flag and the
browser cookie jar. -/
structure Session where
  cookie_set : Bool
  cookies : List (String × String)
deriving DecidableEq, Repr

/-- The guard of `Bugzilla.possible_relogin`:
`error.original and hasattr(error.original, 'code') and
error.original.code == 502 and self.cookie_set`. -/
def possible_relogin_cond (st : Session) (error : WSError) : Bool :=
  (match error.original with
   | some orig =>
     (match orig.code with
      | some c => c == 502
      | none => false)
   | none => false) && st.cookie_set

/-- Model of `Bugzilla.possible_relogin(error)`: on a 502 with an established
session, clear `cookie_set` and the cookies, run `login(force=True)` on the
cleared session, and report `True`; otherwise report `False`.  An exception
raised by `login` propagates. -/
def possible_relogin (st : Session) (login : Session → Except WSError Session)
    (error : WSError) : Except WSError (Bool × Session) :=
  if possible_relogin_cond st error then do
    let cleared : Session := { cookie_set := false, cookies := [] }
    let st2 ← login cleared
    .ok (true, st2)
  else .ok (false, st)

/-- Model of the `Bugzilla.request`/`Bugzilla.submit` wrappers around one
transport operation: `attempt1` is the first call of the wrapped
`super()` operation, `attempt2` the outcome of calling it once more.  The
returned `Nat` counts the retries performed. -/
def bugzilla_request (st : Session) (login : Session → Except WSError Session)
    (attempt1 attempt2 : Except WSError α) : Except WSError α × Nat :=
  match attempt1 with
  | .ok r => (.ok r, 0)
  | .error e =>
    match possible_relogin st login e with
    | .ok (true, _) => (attempt2, 1)
    | .ok (false, _) => (.error e, 0)
    | .error le => (.error le, 0)

/-! ## `_update_bug_whiteboard`

Source (`bugzilla.py:675-692`): read `status_whiteboard` from the live form,
apply `whiteboard.replace(remove, '')` when `remove` occurs in it, append
`'%s %s' % (whiteboard, add)` when `add` does not occur in it, and report
`changes` as whether the new text differs from the value still stored in the
form (the form is only written afterwards, so that value is the original). -/

/-- Model of `Bugzilla._update_bug_whiteboard(remove, add)` on the current
`status_whiteboard` form value: returns `(changes, new_whiteboard)`. -/
def update_bug_whiteboard (status_whiteboard : String) (remove add : Option String) :
    Bool × String :=
  let whiteboard := status_whiteboard
  let whiteboard :=
    match remove with
    | some r =>
      if pyContains r.data whiteboard.data then String.mk (pyRemoveAll whiteboard.data r.data)
      else whiteboard
    | none => whiteboard
  let whiteboard :=
    match add with
    | some a =>
      if !pyContains a.data whiteboard.data then whiteboard ++ " " ++ a
      else whiteboard
    | none => whiteboard
  (status_whiteboard != whiteboard, whiteboard)

/-! ## Specification-side definitions

Definitions written from the words of the spec/claims, to be compared with
the source models above. -/

/-- Specification of the sanitizer's per-character action: a control
character with code point `0-31` other than tab (9), line feed (10) and
carriage return (13) becomes `\`, `x` and its two-digit zero-padded decimal
code point; every other character is left unchanged. -/
def escSpecChar (c : Char) : List Char :=
  if c.toNat < 32 ∧ c.toNat ≠ 9 ∧ c.toNat ≠ 10 ∧ c.toNat ≠ 13 then
    ['\\', 'x', Char.ofNat (48 + c.toNat / 10), Char.ofNat (48 + c.toNat % 10)]
  else [c]

/-- Specification of a single left-to-right scan that deletes every
non-overlapping occurrence of `pat`: at each position either the character
does not start an occurrence and is kept, or an occurrence starts there and
is deleted whole, with the scan resuming after it. -/
inductive RemovedScan (pat : List Char) : List Char → List Char → Prop where
  | nil : RemovedScan pat [] []
  | keep (c : Char) (s t : List Char) :
      pat.isPrefixOf (c :: s) = false → RemovedScan pat s t →
      RemovedScan pat (c :: s) (c :: t)
  | del (s t : List Char) :
      pat ≠ [] → RemovedScan pat s t → RemovedScan pat (pat ++ s) t

/-- Specification of the whiteboard remove step: with a non-empty token that
occurs in the text, the result is related by `RemovedScan`; otherwise (token
absent, empty, or no remove requested) the text is unchanged. -/
def removeSpec (wb : String) (remove : Option String) (wb1 : String) : Prop :=
  match remove with
  | none => wb1 = wb
  | some r =>
    if r.data ≠ [] ∧ pyContains r.data wb.data = true then
      RemovedScan r.data wb.data wb1.data
    else wb1 = wb

/-- Specification of the whiteboard add step: append the token
space-separated when it is not already present, keep the text otherwise. -/
def addSpecResult (wb1 : String) (add : Option String) : String :=
  match add with
  | none => wb1
  | some a => if pyContains a.data wb1.data = true then wb1 else wb1 ++ " " ++ a

/-- The decimal value a digit string denotes, via Mathlib's little-endian
`Nat.ofDigits`. -/
def digitsValue (d : List Char) : Nat :=
  Nat.ofDigits 10 (d.reverse.map (fun c => c.toNat - 48))

/-! ## Concrete inputs used by counterexamples and witnesses -/

/-- Trivial date oracle for concrete evaluations. -/
def env0 : PyEnv := ⟨fun _ => .ok 0⟩

/-- A `<bug>` element with no `error` attribute and no children. -/
def plainBugElem : XElem := .mk "bug" [] none []

/-- The `Bug` record `Bug.__init__` builds from `plainBugElem` under real
credentials. -/
def plainBug : Bug :=
  { bug_id := none, cc_list := [], groups := [], comments := [],
    attachments := [], aliases := [], delta_ts := none, creation_ts := none,
    anonymous := false, flags := [], extra := [] }

/-- A `<bug error="Whatever">` element carrying a nested
`<bug_id>123</bug_id>` child. -/
def genericErrBugElem : XElem :=
  .mk "bug" [("error", "Whatever")] none [.mk "bug_id" [] (some "123") []]

/-- A `<bug error="NotPermitted">` element carrying a nested
`<bug_id>42</bug_id>` child. -/
def notPermittedBugElem : XElem :=
  .mk "bug" [("error", "NotPermitted")] none [.mk "bug_id" [] (some "42") []]

/-- A `<bug error="NotFound">` element with no `bug_id` child. -/
def notFoundBugElem : XElem := .mk "bug" [("error", "NotFound")] none []

/-- A two-entry Atom feed as parsed by `do_search`: entry ids
`a?id=12` and `b?id=7`. -/
def exampleFeed : XElem :=
  .mk "feed" [] none
    [.mk entry_query [] none [.mk id_query [] (some "a?id=12") []],
     .mk entry_query [] none [.mk id_query [] (some "b?id=7") []]]

/-! ## Supporting lemmas -/

/-- Lookup in an association list none of whose keys match fails. -/
lemma lookup_eq_none_of_forall {β : Type} (n : Nat) :
    ∀ l : List (Nat × β), (∀ p ∈ l, p.1 ≠ n) → l.lookup n = none := by
  intro l
  induction l with
  | nil => intro _; rfl
  | cons p tl ih =>
    intro h
    have hp : p.1 ≠ n := h p (by simp)
    have hb : (n == p.1) = false := by simp [Ne.symm hp]
    simp only [List.lookup, hb]
    exact ih (fun q hq => h q (by simp [hq]))

/-- Characterisation of the sanitizer's replacement map: a code point is
mapped exactly when it is a control character other than 9, 10, 13, and it is
mapped to its escape sequence. -/
lemma lookup_replacement_map (n : Nat) :
    replacement_map.lookup n =
      if n < 32 ∧ n ≠ 9 ∧ n ≠ 10 ∧ n ≠ 13 then some (escSeq n) else none := by
  by_cases h : n < 32 ∧ n ≠ 9 ∧ n ≠ 10 ∧ n ≠ 13
  · rw [if_pos h]
    obtain ⟨h32, h9, h10, h13⟩ := h
    interval_cases n <;> first
      | (exact absurd rfl (by assumption))
      | decide
  · rw [if_neg h]
    apply lookup_eq_none_of_forall
    intro p hp
    simp only [replacement_map, List.mem_map, List.mem_filter, List.mem_range] at hp
    obtain ⟨o, ⟨ho32, hof⟩, rfl⟩ := hp
    simp only [bne_iff_ne, Bool.and_eq_true] at hof
    obtain ⟨⟨h9, h10⟩, h13⟩ := hof
    intro he
    exact h (he ▸ ⟨ho32, h9, h10, h13⟩)

/-- The sanitizer acts per character, exactly as `escSpecChar` describes. -/
lemma escape_xml_text_perChar (c : Char) :
    (match replacement_map.lookup c.toNat with
     | some repl => repl.data
     | none => [c]) = escSpecChar c := by
  rw [lookup_replacement_map]
  by_cases h : c.toNat < 32 ∧ c.toNat ≠ 9 ∧ c.toNat ≠ 10 ∧ c.toNat ≠ 13
  · rw [if_pos h]
    simp [escSpecChar, h, escSeq]
  · rw [if_neg h]
    simp [escSpecChar, h]

/-- Character-list view of the sanitizer. -/
lemma escape_xml_text_data (data : String) :
    (escape_xml_text data).data = data.data.flatMap escSpecChar := by
  show data.data.flatMap _ = _
  exact List.flatMap_congr (fun c _ => escape_xml_text_perChar c)

/-- Rebuilding a string from its character list is the identity. -/
lemma string_mk_data (s : String) : String.mk s.data = s := by
  cases s; rfl

/-- Valid code points below `0xd800` round-trip through `Char.ofNat`. -/
lemma char_toNat_ofNat {n : Nat} (h : n < 58) : (Char.ofNat n).toNat = n := by
  have hv : n.isValidChar := Or.inl (by omega)
  simp [Char.ofNat, hv, Char.toNat, Char.ofNatAux, UInt32.toNat, BitVec.toNat_ofNatLt]

/-- Every character the sanitizer emits is left alone by a second pass. -/
lemma escSpecChar_fix {c x : Char} (hx : x ∈ escSpecChar c) : escSpecChar x = [x] := by
  by_cases h : c.toNat < 32 ∧ c.toNat ≠ 9 ∧ c.toNat ≠ 10 ∧ c.toNat ≠ 13
  · simp only [escSpecChar, if_pos h, List.mem_cons, List.not_mem_nil, or_false] at hx
    have hge : 32 ≤ x.toNat := by
      rcases hx with rfl | rfl | rfl | rfl
      · decide
      · decide
      · rw [char_toNat_ofNat (by omega)]; omega
      · rw [char_toNat_ofNat (by omega)]; omega
    have hcond : ¬ (x.toNat < 32 ∧ x.toNat ≠ 9 ∧ x.toNat ≠ 10 ∧ x.toNat ≠ 13) := by omega
    simp [escSpecChar, hcond]
  · simp only [escSpecChar, if_neg h, List.mem_singleton] at hx
    subst hx
    simp [escSpecChar, h]

/-! ## Claim C6 — `escape_xml_text` functional correctness -/

/-- C6: the sanitizer rewrites its input character by character, replacing
each occurrence of a control character with code point 0-31 other than tab,
line feed and carriage return by the four characters backslash, `x` and the
two-digit zero-padded decimal code point, and leaving every other character
unchanged; consequently a string with no such control character (in
particular plain ASCII text) is returned identical.  The function is a total
Lean function, so it never fails. -/
theorem escape_xml_text_spec (data : String) :
    (escape_xml_text data).data = data.data.flatMap escSpecChar ∧
    ((∀ c ∈ data.data, ¬ (c.toNat < 32 ∧ c.toNat ≠ 9 ∧ c.toNat ≠ 10 ∧ c.toNat ≠ 13)) →
      escape_xml_text data = data) := by
  refine ⟨escape_xml_text_data data, fun h => ?_⟩
  have hid : ∀ c ∈ data.data, escSpecChar c = [c] := by
    intro c hc
    simp [escSpecChar, h c hc]
  have hd : (escape_xml_text data).data = data.data := by
    rw [escape_xml_text_data data]
    calc data.data.flatMap escSpecChar
        = data.data.flatMap (fun c => [c]) := List.flatMap_congr hid
      _ = data.data := by simp
  rw [← string_mk_data (escape_xml_text data), hd, string_mk_data]

/-- Witness for C6: a plain-ASCII string is returned identical, and a control
character 0x01 becomes the literal four characters `\x01`. -/
theorem escape_xml_text_spec_witness :
    escape_xml_text "ab" = "ab" ∧
    (escape_xml_text (String.mk [Char.ofNat 1, 'a'])).data = ['\\', 'x', '0', '1', 'a'] := by
  constructor
  · exact (escape_xml_text_spec "ab").2 (by decide)
  · rw [(escape_xml_text_spec (String.mk [Char.ofNat 1, 'a'])).1]
    decide

/-! ## Claim C9 — `escape_xml_text` is idempotent -/

/-- C9: applying the sanitizer twice yields the same result as applying it
once: every character the first pass emits is either an unchanged character
outside the escaped range or part of a printable escape sequence, so the
second pass leaves all of them alone. -/
theorem escape_xml_text_idempotent (data : String) :
    escape_xml_text (escape_xml_text data) = escape_xml_text data := by
  have hfix : ∀ x ∈ (escape_xml_text data).data, escSpecChar x = [x] := by
    intro x hx
    rw [escape_xml_text_data data] at hx
    obtain ⟨c, _, hxc⟩ := List.mem_flatMap.mp hx
    exact escSpecChar_fix hxc
  have hd : (escape_xml_text (escape_xml_text data)).data = (escape_xml_text data).data := by
    rw [escape_xml_text_data (escape_xml_text data)]
    calc (escape_xml_text data).data.flatMap escSpecChar
        = (escape_xml_text data).data.flatMap (fun c => [c]) := List.flatMap_congr hfix
      _ = (escape_xml_text data).data := by simp
  rw [← string_mk_data (escape_xml_text (escape_xml_text data)), hd,
    string_mk_data]

/-! ## Claim C1 — the error branch of `Bug.__init__` -/

/-- Counterexample to C1 as stated: for a `<bug>` element whose `error`
attribute has a value other than the three recognised ones, the generic
`BugzillaError(error)` is raised *without* the bug id, even though a nested
`bug_id` child with text `123` is present and was read. -/
theorem bug_init_generic_error_counterexample :
    Bug.init env0 genericErrBugElem false =
      .error (.bz ⟨.generic, "Whatever", none⟩) ∧
    errorBugId genericErrBugElem = some "123" ∧
    (PyErr.bz ⟨.generic, "Whatever", none⟩) ≠ .bz ⟨.generic, "Whatever", some "123"⟩ := by
  refine ⟨by decide, by decide, by decide⟩

/-- C1 (amended): for every `<bug>` element carrying an `error` attribute,
construction fails with the typed error matching the error text
(`NotPermitted`, `NotFound`, `InvalidBugId`, or the generic error for any
other value); the bug id read from a nested `bug_id` child (null when that
child is absent) is attached to the three named errors, while the generic
error is raised without a bug id. -/
theorem bug_init_error_attribute (env : PyEnv) (bug_et : XElem) (anonymous : Bool)
    (err : String) (h : bug_et.get "error" = some err) :
    Bug.init env bug_et anonymous =
      .error (.bz
        (if err = "NotPermitted" then ⟨.notPermitted, err, errorBugId bug_et⟩
         else if err = "NotFound" then ⟨.notFound, err, errorBugId bug_et⟩
         else if err = "InvalidBugId" then ⟨.invalidBugId, err, errorBugId bug_et⟩
         else ⟨.generic, err, none⟩)) := by
  rw [Bug.init, h]
  by_cases h1 : err = "NotPermitted"
  · simp [h1]
  · by_cases h2 : err = "NotFound"
    · simp [h1, h2]
    · by_cases h3 : err = "InvalidBugId"
      · simp [h1, h2, h3]
      · simp [h1, h2, h3]

/-- Witness for C1: a `<bug error="NotPermitted">` element with a nested
`<bug_id>42</bug_id>` child raises `BugzillaNotPermitted` carrying id 42, and
a `<bug error="NotFound">` element without that child raises
`BugzillaNotFound` with a null id. -/
theorem bug_init_error_attribute_witness :
    Bug.init env0 notPermittedBugElem false =
      .error (.bz ⟨.notPermitted, "NotPermitted", some "42"⟩) ∧
    Bug.init env0 notFoundBugElem true =
      .error (.bz ⟨.notFound, "NotFound", none⟩) := by
  constructor
  · rw [bug_init_error_attribute env0 notPermittedBugElem false "NotPermitted" (by decide)]
    decide
  · rw [bug_init_error_attribute env0 notFoundBugElem true "NotFound" (by decide)]
    decide

/-! ## Claim C10 — `process_flag` stores exactly the non-empty attributes -/

/-- Membership in the `process_flag` fold: a pair is collected exactly when
its key is one of the scanned attribute names, still pending or already in
the accumulator, and its value is the key's present, non-empty attribute
value. -/
lemma process_flag_foldl (element : XElem) (a v : String) :
    ∀ (attrs : List String) (acc : BzFlag),
      ((a, v) ∈ attrs.foldl (fun flag attrName =>
          match element.get attrName with
          | some value => if value ≠ "" then flag ++ [(attrName, value)] else flag
          | none => flag) acc
        ↔ (a, v) ∈ acc ∨ (a ∈ attrs ∧ element.get a = some v ∧ v ≠ "")) := by
  intro attrs
  induction attrs with
  | nil => intro acc; simp
  | cons att rest ih =>
    intro acc
    rcases hget : element.get att with _ | value
    · simp only [List.foldl_cons, hget]
      rw [ih acc]
      constructor
      · rintro (hmem | ⟨hmem, hg, hv⟩)
        · left; exact hmem
        · right; exact ⟨List.mem_cons_of_mem att hmem, hg, hv⟩
      · rintro (hmem | ⟨hmem, hg, hv⟩)
        · left; exact hmem
        · rcases List.mem_cons.mp hmem with rfl | hmem2
          · rw [hget] at hg; cases hg
          · right; exact ⟨hmem2, hg, hv⟩
    · by_cases hval : value ≠ ""
      · simp only [List.foldl_cons, hget, if_pos hval]
        rw [ih (acc ++ [(att, value)])]
        constructor
        · rintro (hmem | ⟨hmem, hg, hv⟩)
          · rcases List.mem_append.mp hmem with hmem1 | hmem1
            · left; exact hmem1
            · have heq := List.mem_singleton.mp hmem1
              have h1 : a = att := congrArg Prod.fst heq
              have h2 : v = value := congrArg Prod.snd heq
              subst h1; subst h2
              right; exact ⟨List.mem_cons_self _ _, hget, hval⟩
          · right; exact ⟨List.mem_cons_of_mem att hmem, hg, hv⟩
        · rintro (hmem | ⟨hmem, hg, hv⟩)
          · left; exact List.mem_append.mpr (Or.inl hmem)
          · rcases List.mem_cons.mp hmem with rfl | hmem2
            · rw [hget] at hg; injection hg with hh
              left; exact List.mem_append.mpr (Or.inr (by rw [hh]; simp))
            · right; exact ⟨hmem2, hg, hv⟩
      · simp only [List.foldl_cons, hget, if_neg hval]
        rw [ih acc]
        push_neg at hval
        constructor
        · rintro (hmem | ⟨hmem, hg, hv⟩)
          · left; exact hmem
          · right; exact ⟨List.mem_cons_of_mem att hmem, hg, hv⟩
        · rintro (hmem | ⟨hmem, hg, hv⟩)
          · left; exact hmem
          · rcases List.mem_cons.mp hmem with rfl | hmem2
            · rw [hget] at hg; injection hg with hh
              exact absurd hh.symm (by simpa [hval] using hv)
            · right; exact ⟨hmem2, hg, hv⟩

/-- C10: a stored flag record contains a pair `(a, v)` exactly when `a` is
one of the six attribute names `process_flag` scans and `v` is its present,
non-empty value on the `<flag>` element — so an attribute with an empty
value is omitted exactly as if it were absent, and no attribute outside the
six is ever stored. -/
theorem process_flag_spec (element : XElem) (a v : String) :
    (a, v) ∈ process_flag element ↔
      a ∈ flag_attributes ∧ element.get a = some v ∧ v ≠ "" := by
  rw [process_flag, process_flag_foldl element a v flag_attributes []]
  simp

/-! ## Claim C2 — `_handle_parse_error` classification (code bug)

The second check in the source reads
`if data.find('Bugzilla has suffered an internal error.'):` — the truthiness
of the index, unlike the adjacent first check which compares with `-1`.
Consequently a body that does not contain either marker raises the
internal-error `BugzillaError` (instead of being logged with `get_bugs`
returning `[]`), an empty body raises that same internal-error message
(instead of the dedicated empty-response message), and a body that *starts*
with the internal-error marker is only logged (instead of raising); the
empty-response branch and the final logging call are unreachable except for
bodies starting with the marker.  The theorem evaluates the faithful model
at these inputs. -/

/-- C2 (code-bug evidence): the concrete classification the code performs,
diverging from the claim on every branch except the buglist-too-large one. -/
theorem handle_parse_error_inverted :
    handle_parse_error "<html>transient error page</html>" =
      .raised ⟨.generic, "Bugzilla has suffered an internal error.", none⟩ ∧
    handle_parse_error "" =
      .raised ⟨.generic, "Bugzilla has suffered an internal error.", none⟩ ∧
    handle_parse_error "Bugzilla has suffered an internal error." = .logged ∧
    handle_parse_error "error: Buglist Too Large" =
      .raised ⟨.buglistTooLarge, "Buglist too large", none⟩ := by
  refine ⟨by decide, by decide, by decide, by decide⟩

/-! ## Claim C4 — `get_bugs` per-bug error dispatch -/

/-- C4: in the `get_bugs` batch loop, let `pre` be bug elements that parse
into records `bs` and `x` the first element whose construction raises a
`BugzillaError` `e`.  Then: in default mode (and also with `store_errors`
but not `permissive`) the loop aborts, raising `e` to the caller; in
permissive mode the failing bug is skipped (or, with `store_errors`, the
error object itself is appended to the output list in place of a record) and
the remaining elements `post` are still processed. -/
theorem get_bugs_error_modes (env : PyEnv) (anon : Bool) (pre : List XElem)
    (x : XElem) (post : List XElem) (acc : List BugOrErr) (bs : List Bug)
    (e : BzError)
    (hpre : List.Forall₂ (fun el b => Bug.init env el anon = .ok b) pre bs)
    (hx : Bug.init env x anon = .error (.bz e)) :
    get_bugs_loop env anon false false (pre ++ x :: post) acc = .error (.bz e) ∧
    get_bugs_loop env anon false true (pre ++ x :: post) acc = .error (.bz e) ∧
    get_bugs_loop env anon true false (pre ++ x :: post) acc =
      get_bugs_loop env anon true false post (acc ++ bs.map Except.ok) ∧
    get_bugs_loop env anon true true (pre ++ x :: post) acc =
      get_bugs_loop env anon true true post (acc ++ bs.map Except.ok ++ [Except.error e]) := by
  induction hpre generalizing acc with
  | nil =>
    refine ⟨?_, ?_, ?_, ?_⟩ <;> simp [get_bugs_loop, hx]
  | @cons p b pre' bs' hp _ ih =>
    have h1 : (p :: pre') ++ x :: post = p :: (pre' ++ x :: post) := rfl
    refine ⟨?_, ?_, ?_, ?_⟩
    · rw [h1]; simp only [get_bugs_loop, hp]
      exact (ih (acc ++ [Except.ok b])).1
    · rw [h1]; simp only [get_bugs_loop, hp]
      exact (ih (acc ++ [Except.ok b])).2.1
    · rw [h1]; simp only [get_bugs_loop, hp]
      rw [(ih (acc ++ [Except.ok b])).2.2.1]
      simp
    · rw [h1]; simp only [get_bugs_loop, hp]
      rw [(ih (acc ++ [Except.ok b])).2.2.2]
      simp

/-- Witness for C4: a good bug followed by a `NotFound` bug aborts the batch
in default mode, while permissive+store_errors mode keeps the record and
stores the error object in its place. -/
theorem get_bugs_error_modes_witness :
    get_bugs_loop env0 false false false ([plainBugElem] ++ notFoundBugElem :: []) [] =
      .error (.bz ⟨.notFound, "NotFound", none⟩) ∧
    get_bugs_loop env0 false false true ([plainBugElem] ++ notFoundBugElem :: []) [] =
      .error (.bz ⟨.notFound, "NotFound", none⟩) ∧
    get_bugs_loop env0 false true false ([plainBugElem] ++ notFoundBugElem :: []) [] =
      get_bugs_loop env0 false true false [] ([] ++ [plainBug].map Except.ok) ∧
    get_bugs_loop env0 false true true ([plainBugElem] ++ notFoundBugElem :: []) [] =
      get_bugs_loop env0 false true true []
        ([] ++ [plainBug].map Except.ok ++ [Except.error ⟨.notFound, "NotFound", none⟩]) :=
  get_bugs_error_modes env0 false [plainBugElem] notFoundBugElem [] []
    [plainBug] ⟨.notFound, "NotFound", none⟩
    (List.Forall₂.cons (by decide) List.Forall₂.nil) (by decide)

/-! ## Claim C7 — `get_bugs` re-login and single batch retry on NotPermitted -/

/-- With the retry flag cleared, `get_bugs` performs no login and returns the
loop result unchanged. -/
lemma get_bugs_retry_false (env : PyEnv) (login : Except PyErr Unit)
    (anon : Bool) (elems : List XElem) (p s : Bool) :
    get_bugs env login anon elems false p s =
      (0, get_bugs_loop env anon p s elems []) := by
  rw [get_bugs.eq_def]
  rcases hl : get_bugs_loop env anon p s elems [] with pe | v
  · cases pe with
    | bz e => simp
    | py m => simp
  · simp

/-- C7: when the batch loop raises `BugzillaNotPermitted` under real
(non-anonymous) credentials and the retry flag is set, `get_bugs` logs in
once and re-runs the whole batch exactly once with the retry flag cleared
(the second run's result is surfaced as-is, and the login counter is exactly
1); with the retry flag cleared the error is raised directly, and under
anonymous credentials a `NotPermitted` loop failure is also raised directly
with no login. -/
theorem get_bugs_not_permitted_retry (env : PyEnv) (login : Except PyErr Unit)
    (elems : List XElem) (p s : Bool) (e : BzError)
    (hloop : get_bugs_loop env false p s elems [] = .error (.bz e))
    (hk : e.kind = .notPermitted)
    (hlogin : login = .ok ()) :
    get_bugs env login false elems true p s =
      (1, (get_bugs env login false elems false p false).2) ∧
    get_bugs env login false elems false p s = (0, .error (.bz e)) ∧
    (∀ e2 : BzError, get_bugs_loop env true p s elems [] = .error (.bz e2) →
      e2.kind = .notPermitted →
      get_bugs env login true elems true p s = (0, .error (.bz e2))) := by
  refine ⟨?_, ?_, ?_⟩
  · rw [get_bugs.eq_def, hloop]
    simp only [hk, if_pos rfl]
    rw [dif_pos (by decide)]
    rw [hlogin]
    simp only [login_and_rerun]
    rw [get_bugs_retry_false env (Except.ok ()) false elems p false]
    simp
  · rw [get_bugs_retry_false env login false elems p s, hloop]
  · intro e2 hloop2 hk2
    rw [get_bugs.eq_def, hloop2]
    simp only [hk2, if_pos rfl]
    rw [dif_neg (by decide)]
    simp

/-- Witness for C7: a single `NotPermitted` bug element under real
credentials triggers exactly one login and one cleared-flag rerun, and the
cleared-flag call raises directly. -/
theorem get_bugs_not_permitted_retry_witness :
    get_bugs env0 (Except.ok ()) false [notPermittedBugElem] true false false =
      (1, (get_bugs env0 (Except.ok ()) false [notPermittedBugElem] false false false).2) ∧
    get_bugs env0 (Except.ok ()) false [notPermittedBugElem] false false false =
      (0, .error (.bz ⟨.notPermitted, "NotPermitted", some "42"⟩)) :=
  ⟨(get_bugs_not_permitted_retry env0 (Except.ok ()) [notPermittedBugElem] false false
      ⟨.notPermitted, "NotPermitted", some "42"⟩ (by decide) (by decide) rfl).1,
   (get_bugs_not_permitted_retry env0 (Except.ok ()) [notPermittedBugElem] false false
      ⟨.notPermitted, "NotPermitted", some "42"⟩ (by decide) (by decide) rfl).2.1⟩

/-! ## Claim C5 — 502 relogin-and-retry in `request`/`submit` -/

/-- C5: a successful transport call is returned with no retry; a transport
error whose underlying status is not 502 (or that carries no underlying
error, or arrives while no session cookie set is established) propagates
unmodified with no retry; and a 502 with an established session clears the
cookies, forces a re-login on the cleared session and retries the wrapped
operation exactly once, the second outcome — success or failure — being
returned unmodified. -/
theorem bugzilla_request_relogin_502 (α : Type) (st : Session)
    (login : Session → Except WSError Session) (a2 : Except WSError α)
    (e : WSError) :
    (∀ r : α, bugzilla_request st login (.ok r) a2 = (.ok r, 0)) ∧
    ((e.original = none ∨ (∃ o, e.original = some o ∧ o.code ≠ some 502) ∨
        st.cookie_set = false) →
      bugzilla_request st login (.error e) a2 = (.error e, 0)) ∧
    (∀ o st2, e.original = some o → o.code = some 502 → st.cookie_set = true →
      login ⟨false, []⟩ = .ok st2 →
      bugzilla_request st login (.error e) a2 = (a2, 1)) := by
  refine ⟨fun r => rfl, ?_, ?_⟩
  · intro h
    have hcond : possible_relogin_cond st e = false := by
      rcases h with h | ⟨o, ho, hc⟩ | h
      · simp [possible_relogin_cond, h]
      · rcases hco : o.code with _ | c
        · simp [possible_relogin_cond, ho, hco]
        · have hne : c ≠ 502 := by
            intro hcc
            exact hc (by rw [hco, hcc])
          simp [possible_relogin_cond, ho, hco, hne]
      · simp [possible_relogin_cond, h]
    simp [bugzilla_request, possible_relogin, hcond]
  · intro o st2 ho hc hcs hl
    have hcond : possible_relogin_cond st e = true := by
      simp [possible_relogin_cond, ho, hc, hcs]
    simp only [bugzilla_request, possible_relogin, hcond, if_pos rfl, hl]
    rfl

/-- Witness for C5: a 502 with an established session retries once; the
retry's own failure is returned unmodified with exactly one retry
performed. -/
theorem bugzilla_request_relogin_502_witness :
    bugzilla_request (⟨true, [("c", "v")]⟩ : Session) (fun s => .ok s)
      (Except.error ⟨some ⟨some 502⟩⟩ : Except WSError Nat)
      (Except.error ⟨none⟩) = (Except.error ⟨none⟩, 1) :=
  (bugzilla_request_relogin_502 Nat ⟨true, [("c", "v")]⟩ (fun s => .ok s)
      (Except.error ⟨none⟩) ⟨some ⟨some 502⟩⟩).2.2
    ⟨some 502⟩ ⟨false, []⟩ rfl rfl rfl rfl

/-! ## Claim C3 — `_update_bug_whiteboard` (corrected: removes every occurrence) -/

/-- Counterexample to C3 as stated: removing token `x` from whiteboard
`x x` deletes *both* occurrences (`str.replace` removes every occurrence),
yielding `" "` — not `" x"` as deleting only the first textual occurrence
would. -/
theorem update_bug_whiteboard_counterexample :
    update_bug_whiteboard "x x" (some "x") none = (true, " ") ∧
    (" " : String) ≠ " x" := by
  refine ⟨by decide, by decide⟩

/-- A positive skip counter just drops that many characters before the scan
resumes. -/
lemma removeAllGo_skip (pat : List Char) :
    ∀ (s : List Char) (k : Nat), removeAllGo pat s k = removeAllGo pat (s.drop k) 0 := by
  intro s
  induction s with
  | nil => intro k; cases k <;> rfl
  | cons c rest ih =>
    intro k
    cases k with
    | zero => rfl
    | succ k2 => simpa [removeAllGo] using ih k2

/-- The scan of `pyRemoveAll` realises the `RemovedScan` specification: it
deletes exactly the non-overlapping occurrences found left to right. -/
lemma removedScan_removeAllGo (pat : List Char) (hp : pat ≠ []) :
    ∀ s : List Char, RemovedScan pat s (removeAllGo pat s 0) := by
  have hlen : 1 ≤ pat.length := List.length_pos.mpr hp
  have H : ∀ n (s : List Char), s.length ≤ n → RemovedScan pat s (removeAllGo pat s 0) := by
    intro n
    induction n with
    | zero =>
      intro s hs
      have : s = [] := List.eq_nil_of_length_eq_zero (Nat.le_zero.mp hs)
      subst this
      exact RemovedScan.nil
    | succ n ih =>
      intro s hs
      match s with
      | [] => exact RemovedScan.nil
      | c :: rest =>
        by_cases hpre : pat.isPrefixOf (c :: rest) = true
        · have hsplit : pat ++ (c :: rest).drop pat.length = c :: rest :=
            List.prefix_iff_eq_append.mp ( List.isPrefixOf_iff_prefix.mp hpre)
          have hdrop : rest.drop (pat.length - 1) = (c :: rest).drop pat.length := by
            cases hpl : pat.length with
            | zero => omega
            | succ m => simp
          have h1 : removeAllGo pat (c :: rest) 0 =
              removeAllGo pat ((c :: rest).drop pat.length) 0 := by
            rw [show removeAllGo pat (c :: rest) 0 = removeAllGo pat rest (pat.length - 1) by
              simp [removeAllGo, hpre]]
            rw [removeAllGo_skip pat rest (pat.length - 1), hdrop]
          have htail : RemovedScan pat ((c :: rest).drop pat.length)
              (removeAllGo pat ((c :: rest).drop pat.length) 0) := by
            apply ih
            have := List.length_drop pat.length (c :: rest)
            simp only [List.length_cons] at hs this
            omega
          rw [h1]
          have hdel := RemovedScan.del ((c :: rest).drop pat.length)
            (removeAllGo pat ((c :: rest).drop pat.length) 0) hp htail
          rw [hsplit] at hdel
          exact hdel
        · have h1 : removeAllGo pat (c :: rest) 0 = c :: removeAllGo pat rest 0 := by
            simp [removeAllGo, hpre]
          rw [h1]
          exact RemovedScan.keep c rest _ (Bool.eq_false_iff.mpr hpre)
            (ih rest (by simp only [List.length_cons] at hs; omega))
  exact fun s => H s.length s le_rfl

/-- C3 (amended): the whiteboard step deletes every left-to-right
non-overlapping textual occurrence of the remove token when that token is
present (a no-op when it is absent), then appends the add token
space-separated when it is not already present (a no-op when it is), and
reports `changed` as true exactly when the resulting text differs from the
original whiteboard text. -/
theorem update_bug_whiteboard_spec (wb : String) (remove add : Option String) :
    ∃ wb1 : String,
      removeSpec wb remove wb1 ∧
      (update_bug_whiteboard wb remove add).2 = addSpecResult wb1 add ∧
      ((update_bug_whiteboard wb remove add).1 = true ↔
        (update_bug_whiteboard wb remove add).2 ≠ wb) := by
  have hiff : (update_bug_whiteboard wb remove add).1 = true ↔
      (update_bug_whiteboard wb remove add).2 ≠ wb := by
    have hfst : (update_bug_whiteboard wb remove add).1 =
        (wb != (update_bug_whiteboard wb remove add).2) := rfl
    rw [hfst, bne_iff_ne]
    exact ne_comm
  cases remove with
  | none =>
    refine ⟨wb, rfl, ?_, hiff⟩
    cases add with
    | none => rfl
    | some a =>
      show (if !pyContains a.data wb.data then wb ++ " " ++ a else wb) = _
      simp only [addSpecResult]
      cases hc : pyContains a.data wb.data <;> simp [hc]
  | some r =>
    cases hc : pyContains r.data wb.data with
    | false =>
      refine ⟨wb, ?_, ?_, hiff⟩
      · simp [removeSpec, hc]
      · cases add with
        | none => simp [update_bug_whiteboard, addSpecResult, hc]
        | some a =>
          cases hca : pyContains a.data wb.data <;>
            simp [update_bug_whiteboard, addSpecResult, hc, hca]
    | true =>
      by_cases hr : r.data = []
      · have hrm : String.mk (pyRemoveAll wb.data r.data) = wb := by
          rw [pyRemoveAll, if_pos (by simp [hr])]
        refine ⟨wb, ?_, ?_, hiff⟩
        · simp [removeSpec, hr]
        · cases add with
          | none => simp [update_bug_whiteboard, addSpecResult, hc, hrm]
          | some a =>
            cases hca : pyContains a.data wb.data <;>
              simp [update_bug_whiteboard, addSpecResult, hc, hrm, hca]
      · refine ⟨String.mk (pyRemoveAll wb.data r.data), ?_, ?_, hiff⟩
        · simp only [removeSpec]
          rw [if_pos ⟨hr, hc⟩]
          show RemovedScan r.data wb.data (pyRemoveAll wb.data r.data)
          rw [pyRemoveAll, if_neg (by simp [hr])]
          exact removedScan_removeAllGo r.data hr wb.data
        · cases add with
          | none => simp [update_bug_whiteboard, addSpecResult, hc]
          | some a =>
            cases hca : pyContains a.data (String.mk (pyRemoveAll wb.data r.data)).data <;>
              simp [update_bug_whiteboard, addSpecResult, hc, hca]

/-! ## Claim C8 — `do_search` id extraction -/

/-- `strFindAux` returns the first match position: if `pat` matches at `k`
and at no earlier position, the scan started with offset `i` yields
`i + k`. -/
lemma strFindAux_eq (pat : List Char) :
    ∀ (s : List Char) (k i : Nat),
      pat.isPrefixOf (s.drop k) = true →
      (∀ j, j < k → pat.isPrefixOf (s.drop j) = false) →
      strFindAux pat s i = some (i + k) := by
  intro s
  induction s with
  | nil =>
    intro k i hk hlt
    have hpat : pat = [] := by
      rw [List.drop_nil] at hk
      rw [ List.isPrefixOf_iff_prefix] at hk
      exact List.prefix_nil.mp hk
    have hk0 : k = 0 := by
      by_contra hne
      have h0 := hlt 0 (Nat.pos_of_ne_zero hne)
      rw [List.drop_nil] at h0
      subst hpat
      simp [List.isPrefixOf] at h0
    subst hpat hk0
    simp [strFindAux]
  | cons c rest ih =>
    intro k i hk hlt
    cases k with
    | zero =>
      simp only [List.drop_zero] at hk
      simp [strFindAux, hk]
    | succ k2 =>
      have h0 : pat.isPrefixOf (c :: rest) = false := by
        have := hlt 0 (Nat.succ_pos k2)
        simpa using this
      have hk2 : pat.isPrefixOf (rest.drop k2) = true := by
        simpa [List.drop_succ_cons] using hk
      have hlt2 : ∀ j, j < k2 → pat.isPrefixOf (rest.drop j) = false := by
        intro j hj
        have := hlt (j + 1) (by omega)
        simpa [List.drop_succ_cons] using this
      have hres := ih k2 (i + 1) hk2 hlt2
      simp only [strFindAux, h0, Bool.false_eq_true, if_false, hres]
      congr 1
      omega

/-- Model of `int` on a non-empty all-digit string: the decimal value. -/
lemma pyInt_digits (d : List Char) (hne : d ≠ []) (hd : ∀ c ∈ d, c.isDigit = true) :
    pyInt (String.mk d) = .ok (Int.ofNat (natOfDigits d)) := by
  obtain ⟨c, rest, rfl⟩ := List.exists_cons_of_ne_nil hne
  have hcd := hd c (by simp)
  have hc1 : c ≠ '-' := by
    intro e; rw [e] at hcd; exact absurd hcd (by decide)
  have hc2 : c ≠ '+' := by
    intro e; rw [e] at hcd; exact absurd hcd (by decide)
  simp only [pyInt]
  rw [if_neg hc1, if_neg hc2, if_pos ⟨by simp, List.all_eq_true.mpr hd⟩]
  simp

/-- Horner evaluation of a digit list agrees with the little-endian
`Nat.ofDigits` reading of its reversal. -/
lemma natOfDigits_foldl : ∀ (ds : List Char) (a : Nat),
    ds.foldl (fun a c => 10 * a + (c.toNat - 48)) a =
      a * 10 ^ ds.length + Nat.ofDigits 10 (ds.reverse.map (fun c => c.toNat - 48)) := by
  intro ds
  induction ds with
  | nil => intro a; simp
  | cons c rest ih =>
    intro a
    simp only [List.foldl_cons, List.reverse_cons, List.map_append, List.map_cons,
      List.map_nil, List.length_cons]
    rw [ih (10 * a + (c.toNat - 48)), Nat.ofDigits_append]
    simp [List.length_map, List.length_reverse, pow_succ, Nat.ofDigits_singleton]
    ring

/-- The source-side digit accumulator equals the specification value. -/
lemma natOfDigits_eq (ds : List Char) : natOfDigits ds = digitsValue ds := by
  rw [natOfDigits, digitsValue, natOfDigits_foldl ds 0]
  simp

/-- Stripping everything up to and including the first `?id=` and converting
with `int` recovers the decimal value of the digit suffix. -/
lemma strip_id_value (u d : List Char)
    (hu : ∀ j, j < u.length →
      ("?id=" : String).data.isPrefixOf ((u ++ ("?id=" : String).data ++ d).drop j) = false)
    (hne : d ≠ []) (hd : ∀ c ∈ d, c.isDigit = true) :
    pyInt (pySliceFrom (String.mk (u ++ ("?id=" : String).data ++ d))
      (pyFind (String.mk (u ++ ("?id=" : String).data ++ d)) "?id=" + 4)) =
      .ok (Int.ofNat (digitsValue d)) := by
  have hdata : (String.mk (u ++ ("?id=" : String).data ++ d)).data =
      u ++ ("?id=" : String).data ++ d := rfl
  have hfind : strFindAux ("?id=" : String).data (u ++ ("?id=" : String).data ++ d) 0 =
      some (0 + u.length) := by
    apply strFindAux_eq
    · rw [List.append_assoc, List.drop_left]
      rw [ List.isPrefixOf_iff_prefix]
      exact List.prefix_append _ _
    · exact hu
  have hpf : pyFind (String.mk (u ++ ("?id=" : String).data ++ d)) "?id=" =
      Int.ofNat u.length := by
    rw [pyFind, hdata, hfind]
    simp
  rw [hpf]
  have hk : (Int.ofNat u.length + 4).toNat = u.length + 4 := by
    simp only [Int.ofNat_eq_coe]
    omega
  rw [pySliceFrom, if_pos (by simp only [Int.ofNat_eq_coe]; omega), hk, hdata]
  have hlen : (u ++ ("?id=" : String).data).length = u.length + 4 := by
    simp [List.length_append]
  have hdrop : (u ++ ("?id=" : String).data ++ d).drop (u.length + 4) = d := by
    rw [← hlen, List.drop_left]
  rw [hdrop, pyInt_digits d hne hd, natOfDigits_eq]

/-- Bind on a successful `Except` computation applies the continuation. -/
lemma except_bind_ok {ε α β : Type} (a : α) (f : α → Except ε β) :
    (Except.ok a >>= f : Except ε β) = f a := rfl

/-- `pure` on `Except` is `Except.ok`. -/
lemma except_pure_eq_ok {ε α : Type} (a : α) : (pure a : Except ε α) = Except.ok a := rfl

/-- Induction core for C8: entries matching the `?id=<digits>` pattern are
mapped, in order, to the decimal values of their digit suffixes. -/
lemma do_search_entries (entries : List XElem) (ns : List Int)
    (h : List.Forall₂ (fun (entry : XElem) (n : Int) =>
      ∃ el u d, entry.find id_query = some el ∧
        el.text = some (String.mk (u ++ ("?id=" : String).data ++ d)) ∧
        (∀ j, j < List.length u →
          ("?id=" : String).data.isPrefixOf
            ((u ++ ("?id=" : String).data ++ d).drop j) = false) ∧
        d ≠ [] ∧ (∀ c ∈ d, c.isDigit = true) ∧
        n = Int.ofNat (digitsValue d)) entries ns) :
    ∃ texts : List (Option String),
      entries.mapM (fun bug =>
        match bug.find id_query with
        | some el => Except.ok el.text
        | none => Except.error (PyErr.py "AttributeError: NoneType object has no attribute text"))
        = Except.ok texts ∧
      texts.mapM (fun bugid =>
        match bugid with
        | some s => pyInt (pySliceFrom s (pyFind s "?id=" + 4))
        | none => Except.error (PyErr.py "TypeError: NoneType object is not subscriptable"))
        = Except.ok ns := by
  induction h with
  | nil => exact ⟨[], by rw [List.mapM_nil]; rfl, by rw [List.mapM_nil]; rfl⟩
  | @cons entry n rest ns2 hP _ ih =>
    obtain ⟨texts, h1, h2⟩ := ih
    obtain ⟨el, u, d, hfe, htext, hu, hne, hdig, hn⟩ := hP
    have hg := strip_id_value u d hu hne hdig
    refine ⟨some (String.mk (u ++ ("?id=" : String).data ++ d)) :: texts, ?_, ?_⟩
    · simp only [List.mapM_cons, hfe, htext, h1, except_bind_ok, except_pure_eq_ok]
    · simp only [List.mapM_cons, h2, hg, hn, except_bind_ok, except_pure_eq_ok]

/-- C8: for a feed response whose N entries each carry an identifier of the
shape `<prefix>?id=<digits>` (with `?id=` first occurring where shown),
`do_search` returns exactly the N integers denoted by those digit suffixes,
obtained by stripping everything up to and including `?id=`, in document
order of the entries — never re-sorted and never deduplicated (the output is
exactly the in-order list). -/
theorem do_search_ids_spec (response_et : XElem) (ns : List Int)
    (h : List.Forall₂ (fun (entry : XElem) (n : Int) =>
      ∃ el u d, entry.find id_query = some el ∧
        el.text = some (String.mk (u ++ ("?id=" : String).data ++ d)) ∧
        (∀ j, j < List.length u →
          ("?id=" : String).data.isPrefixOf
            ((u ++ ("?id=" : String).data ++ d).drop j) = false) ∧
        d ≠ [] ∧ (∀ c ∈ d, c.isDigit = true) ∧
        n = Int.ofNat (digitsValue d)) (response_et.findall entry_query) ns) :
    do_search_ids response_et = .ok ns := by
  obtain ⟨texts, h1, h2⟩ := do_search_entries (response_et.findall entry_query) ns h
  rw [do_search_ids, h1]
  exact h2

/-- Witness for C8: the two-entry feed with ids `a?id=12` and `b?id=7`
yields exactly `[12, 7]` in document order. -/
theorem do_search_ids_spec_witness : do_search_ids exampleFeed = .ok [12, 7] := by
  apply do_search_ids_spec
  refine List.Forall₂.cons ?_ (List.Forall₂.cons ?_ List.Forall₂.nil)
  · exact ⟨XElem.mk id_query [] (some "a?id=12") [], ['a'], ['1', '2'],
      rfl, by decide, by decide, by decide, by decide, by decide⟩
  · exact ⟨XElem.mk id_query [] (some "b?id=7") [], ['b'], ['7'],
      rfl, by decide, by decide, by decide, by decide, by decide⟩
